import Mathlib

/-!
Verification development for a freelancing-marketplace backend.

The model below is a shallow embedding of the workflow core of the
repository: job lifecycle, bidding, and payment settlement.  The entity
store (MongoDB collections) is modelled as lists of records; each HTTP
route handler becomes a pure function from a store (plus request
arguments) to a store paired with an optional error.  Mongoose
`findByIdAndUpdate` is modelled as a map over the collection touching the
matching identifier (a no-op when the identifier is absent, as in
MongoDB); `findOne` / `findById` as `List.find?`.  Gateway-facing byte
strings (order ids, transaction ids, HMAC signatures, raw webhook bodies)
are modelled as bit lists so that bit-level properties of signature
comparison can be stated; the external HMAC-SHA256 primitive of the
`crypto` library is a function parameter, since the repository itself
only calls it at the boundary.  Record fields never touched by any
modelled operation (timestamps, attachments, profile data) are omitted.
-/

/-- Gateway-facing strings (order ids, signatures, raw bodies) as bit lists. -/
abbrev Str := List Bool

/-- ASCII bits of the separator character placed between order id and
transaction id when the signature body is assembled (code point 124). -/
def pipeBits : Str := [false, true, true, true, true, true, false, false]

/-- User roles, from the User schema and the authorize middleware. -/
inductive Role
  | freelancer
  | job_provider
deriving DecidableEq, Repr

/-- Job status enumeration, from the Job schema. -/
inductive JobStatus
  | open_
  | in_progress
  | completed
  | cancelled
deriving DecidableEq, Repr

/-- Bid status enumeration, from the Bid schema. -/
inductive BidStatus
  | pending
  | accepted
  | rejected
deriving DecidableEq, Repr

/-- Payment status enumeration, from the Payment schema. -/
inductive PaymentStatus
  | created
  | paid
  | failed
  | refunded
deriving DecidableEq, Repr

/-- Error taxonomy of the specification; each route handler's 4xx/5xx
responses are mapped onto it (400 state-machine violations are
conflictError, 400 signature mismatches are authenticationError,
403 is authorizationError, 404 is notFoundError, uncaught exceptions
surfaced as 500 are serverError). -/
inductive Err
  | validationError
  | notFoundError
  | authorizationError
  | conflictError
  | authenticationError
  | serverError
deriving DecidableEq, Repr

/-- A Job record, from the Job schema. -/
structure Job where
  id : Nat
  title : String
  description : String
  category : String
  budget : Nat
  skills : List String
  createdBy : Nat
  status : JobStatus
  assignedTo : Option Nat
  bidsCount : Int
deriving DecidableEq, Repr

/-- A Bid record, from the Bid schema. -/
structure Bid where
  id : Nat
  freelancerId : Nat
  jobId : Nat
  bidAmount : Nat
  message : String
  deliveryTime : Nat
  status : BidStatus
deriving DecidableEq, Repr

/-- A Payment record, from the Payment schema. -/
structure Payment where
  id : Nat
  jobId : Nat
  payerId : Nat
  payeeId : Nat
  amount : Nat
  razorpayOrderId : Str
  razorpayPaymentId : Option Str
  razorpaySignature : Option Str
  status : PaymentStatus
deriving DecidableEq, Repr

/-- The entity store: the three collections the workflow core touches. -/
structure Store where
  jobs : List Job
  bids : List Bid
  payments : List Payment
deriving DecidableEq, Repr

/-- Job.findById. -/
def findJob (s : Store) (jid : Nat) : Option Job :=
  s.jobs.find? fun j => j.id = jid

/-- Bid.findById. -/
def findBid (s : Store) (bid : Nat) : Option Bid :=
  s.bids.find? fun b => b.id = bid

/-- Payment.findOne on razorpayOrderId. -/
def findPaymentByOrder (s : Store) (oid : Str) : Option Payment :=
  s.payments.find? fun p => p.razorpayOrderId = oid

/-- Job.findByIdAndUpdate: update every job carrying the identifier
(`no-op` when absent, as in MongoDB). -/
def updateJobsById (jobs : List Job) (jid : Nat) (f : Job → Job) : List Job :=
  jobs.map fun j => if j.id = jid then f j else j

/-- Store-level variant of updateJobsById. -/
def updateJobById (s : Store) (jid : Nat) (f : Job → Job) : Store :=
  { s with jobs := updateJobsById s.jobs jid f }

/-- Bid document save after in-place mutation: replace by identifier. -/
def updateBidById (s : Store) (bid : Nat) (f : Bid → Bid) : Store :=
  { s with bids := s.bids.map fun b => if b.id = bid then f b else b }

/-- Payment document save after in-place mutation: replace by identifier. -/
def updatePaymentById (s : Store) (pid : Nat) (f : Payment → Payment) : Store :=
  { s with payments := s.payments.map fun p => if p.id = pid then f p else p }

/-- The fixed category list of the jobs routes. -/
def categories : List String :=
  ["Web Development", "Mobile Development", "Design", "Writing", "Data Entry",
   "Digital Marketing", "Video Editing", "Translation", "Other"]

/-- POST /api/jobs: create a job.  Role gate, express-validator checks,
then insert with status=open, no assignee, bidsCount=0. -/
def createJob (s : Store) (callerId : Nat) (callerRole : Role)
    (title description category : String) (budget : Nat)
    (skills : List String) (newJobId : Nat) : Store × Option Err :=
  if callerRole ≠ Role.job_provider then (s, some Err.authorizationError)
  else if ¬ (5 ≤ title.length ∧ 20 ≤ description.length ∧
      category ∈ categories ∧ 1 ≤ budget) then (s, some Err.validationError)
  else
    ({ s with jobs := s.jobs ++
        [{ id := newJobId, title := title, description := description,
           category := category, budget := budget, skills := skills,
           createdBy := callerId, status := JobStatus.open_,
           assignedTo := none, bidsCount := 0 }] }, none)

/-- The allowlisted fields of PUT /api/jobs/:id; a field left `none` was
absent from the request body. -/
structure JobUpdate where
  title : Option String
  description : Option String
  budget : Option Nat
  skills : Option (List String)
  status : Option JobStatus
deriving DecidableEq, Repr

/-- Application of a JobUpdate to a job record. -/
def applyJobUpdate (u : JobUpdate) (j : Job) : Job :=
  { j with
    title := u.title.getD j.title,
    description := u.description.getD j.description,
    budget := u.budget.getD j.budget,
    skills := u.skills.getD j.skills,
    status := u.status.getD j.status }

/-- PUT /api/jobs/:id: owner-issued field edits over the allowlist
(title, description, budget, skills, status). -/
def updateJobRoute (s : Store) (callerId : Nat) (callerRole : Role)
    (jid : Nat) (u : JobUpdate) : Store × Option Err :=
  if callerRole ≠ Role.job_provider then (s, some Err.authorizationError)
  else
    match findJob s jid with
    | none => (s, some Err.notFoundError)
    | some job =>
      if job.createdBy ≠ callerId then (s, some Err.authorizationError)
      else (updateJobById s jid (applyJobUpdate u), none)

/-- DELETE /api/jobs/:id: owner deletes the job and every bid on it. -/
def deleteJobRoute (s : Store) (callerId : Nat) (callerRole : Role)
    (jid : Nat) : Store × Option Err :=
  if callerRole ≠ Role.job_provider then (s, some Err.authorizationError)
  else
    match findJob s jid with
    | none => (s, some Err.notFoundError)
    | some job =>
      if job.createdBy ≠ callerId then (s, some Err.authorizationError)
      else
        ({ s with jobs := s.jobs.filter fun j => j.id ≠ jid,
                  bids := s.bids.filter fun b => b.jobId ≠ jid }, none)

/-- Bid document save against the unique compound index on
(freelancerId, jobId): insertion is refused at the store level whenever a
bid with the same pair already exists. -/
def bidSave (s : Store) (b : Bid) : Except Err Store :=
  if s.bids.any (fun x => x.freelancerId = b.freelancerId ∧ x.jobId = b.jobId)
  then Except.error Err.conflictError
  else Except.ok { s with bids := s.bids ++ [b] }

/-- POST /api/bids: place a bid.  Role gate, express-validator checks
(bidAmount at least 1, message at least 10 characters, deliveryTime at
least 1 day), job existence and openness, application-level duplicate
pre-check, then insert through the unique index and increment the job's
bidsCount. -/
def placeBid (s : Store) (callerId : Nat) (callerRole : Role) (jid : Nat)
    (bidAmount : Nat) (message : String) (deliveryTime : Nat)
    (newBidId : Nat) : Store × Option Err :=
  if callerRole ≠ Role.freelancer then (s, some Err.authorizationError)
  else if ¬ (1 ≤ bidAmount ∧ 10 ≤ message.length ∧ 1 ≤ deliveryTime) then
    (s, some Err.validationError)
  else
    match findJob s jid with
    | none => (s, some Err.notFoundError)
    | some job =>
      if job.status ≠ JobStatus.open_ then (s, some Err.conflictError)
      else if s.bids.any (fun b => b.freelancerId = callerId ∧ b.jobId = jid) then
        (s, some Err.conflictError)
      else
        match bidSave s
            { id := newBidId, freelancerId := callerId, jobId := jid,
              bidAmount := bidAmount, message := message,
              deliveryTime := deliveryTime, status := BidStatus.pending } with
        | Except.error e => (s, some e)
        | Except.ok s1 =>
          (updateJobById s1 jid (fun j => { j with bidsCount := j.bidsCount + 1 }), none)

/-- PUT /api/bids/:id/accept: the job owner accepts a bid.  Requires the
parent job to still be open; marks the bid accepted, moves the job to
in_progress assigned to the bid's freelancer, and bulk-rejects every
other bid on the same job. -/
def acceptBid (s : Store) (callerId : Nat) (bidId : Nat) : Store × Option Err :=
  match findBid s bidId with
  | none => (s, some Err.notFoundError)
  | some bid =>
    match findJob s bid.jobId with
    | none => (s, some Err.serverError)
    | some job =>
      if job.createdBy ≠ callerId then (s, some Err.authorizationError)
      else if job.status ≠ JobStatus.open_ then (s, some Err.conflictError)
      else
        let s1 := updateBidById s bid.id (fun b => { b with status := BidStatus.accepted })
        let s2 := updateJobById s1 bid.jobId
          (fun j => { j with status := JobStatus.in_progress,
                             assignedTo := some bid.freelancerId })
        let s3 := { s2 with bids := s2.bids.map fun b =>
          if b.jobId = bid.jobId ∧ b.id ≠ bid.id
          then { b with status := BidStatus.rejected } else b }
        (s3, none)

/-- PUT /api/bids/:id/reject: the job owner rejects a bid.  The handler
checks ownership of the parent job and nothing else: it carries no
precondition on the bid's current status. -/
def rejectBid (s : Store) (callerId : Nat) (bidId : Nat) : Store × Option Err :=
  match findBid s bidId with
  | none => (s, some Err.notFoundError)
  | some bid =>
    match findJob s bid.jobId with
    | none => (s, some Err.serverError)
    | some job =>
      if job.createdBy ≠ callerId then (s, some Err.authorizationError)
      else (updateBidById s bid.id (fun b => { b with status := BidStatus.rejected }), none)

/-- DELETE /api/bids/:id: a freelancer deletes their own bid, allowed
only while the bid is still pending; decrements the job's bidsCount. -/
def deleteBid (s : Store) (callerId : Nat) (bidId : Nat) : Store × Option Err :=
  match findBid s bidId with
  | none => (s, some Err.notFoundError)
  | some bid =>
    if bid.freelancerId ≠ callerId then (s, some Err.authorizationError)
    else if bid.status ≠ BidStatus.pending then (s, some Err.conflictError)
    else
      (updateJobById
        { s with bids := s.bids.filter fun b => b.id ≠ bidId }
        bid.jobId (fun j => { j with bidsCount := j.bidsCount - 1 }), none)

/-- POST /api/payment/create-order: the job owner creates a payment
intent for an assigned job; the gateway's order id is an input.  A new
Payment record is stored with status=created, payee the job's assignee. -/
def createOrder (s : Store) (callerId : Nat) (callerRole : Role) (jid : Nat)
    (amount : Nat) (orderId : Str) (newPaymentId : Nat) : Store × Option Err :=
  if callerRole ≠ Role.job_provider then (s, some Err.authorizationError)
  else if ¬ 1 ≤ amount then (s, some Err.validationError)
  else
    match findJob s jid with
    | none => (s, some Err.notFoundError)
    | some job =>
      if job.createdBy ≠ callerId then (s, some Err.authorizationError)
      else
        match job.assignedTo with
        | none => (s, some Err.conflictError)
        | some payee =>
          ({ s with payments := s.payments ++
              [{ id := newPaymentId, jobId := jid, payerId := callerId,
                 payeeId := payee, amount := amount, razorpayOrderId := orderId,
                 razorpayPaymentId := none, razorpaySignature := none,
                 status := PaymentStatus.created }] }, none)

/-- The signed body assembled by the verify handler: order id, the
separator character, transaction id. -/
def signatureBody (orderId paymentId : Str) : Str :=
  orderId ++ pipeBits ++ paymentId

/-- The signature the verify handler recomputes: HMAC-SHA256 of the
signature body under the shared gateway secret.  The HMAC primitive is
the crypto library's, taken as a function parameter. -/
def expectedSignature (hmac : Str → Str → Str) (secret orderId paymentId : Str) : Str :=
  hmac secret (signatureBody orderId paymentId)

/-- The accept/reject outcome of signature verification: exact equality
of the recomputed signature with the supplied one. -/
def signatureOk (hmac : Str → Str → Str) (secret orderId paymentId supplied : Str) : Bool :=
  expectedSignature hmac secret orderId paymentId = supplied

/-- Mutation of the payment document on signature mismatch. -/
def failPaymentDoc (q : Payment) : Payment :=
  { q with status := PaymentStatus.failed }

/-- Mutation of the payment document on signature match: record the
transaction id and the signature, mark paid. -/
def settlePaymentDoc (txn sig : Str) (q : Payment) : Payment :=
  { q with razorpayPaymentId := some txn, razorpaySignature := some sig,
           status := PaymentStatus.paid }

/-- Mutation of the payment document on a payment.captured webhook:
mark paid and record the gateway transaction id. -/
def capturePaymentDoc (txn : Str) (q : Payment) : Payment :=
  { q with status := PaymentStatus.paid, razorpayPaymentId := some txn }

/-- Mutation of the job document on settlement. -/
def completeJobDoc (j : Job) : Job :=
  { j with status := JobStatus.completed }

/-- POST /api/payment/verify: locate the Payment by gateway order id,
recompute the HMAC and compare.  On mismatch the payment is marked
failed and the caller fails with authenticationError; on match the
payment records the transaction id and signature, becomes paid, and the
referenced job is moved to completed.  The authenticated caller's
identity is never consulted.  When the referenced job is missing the
handler crashes after the payment was already saved as paid (populate
returned null), surfaced as serverError. -/
def verifyPayment (s : Store) (callerId : Nat) (hmac : Str → Str → Str)
    (secret orderId paymentId signature : Str) : Store × Option Err :=
  match findPaymentByOrder s orderId with
  | none => (s, some Err.notFoundError)
  | some p =>
    if signatureOk hmac secret orderId paymentId signature then
      let s1 := updatePaymentById s p.id (settlePaymentDoc paymentId signature)
      match findJob s p.jobId with
      | none => (s1, some Err.serverError)
      | some _ =>
        (updateJobById s1 p.jobId completeJobDoc, none)
    else
      (updatePaymentById s p.id failPaymentDoc, some Err.authenticationError)

/-- Webhook helper for payment.captured: locate the Payment by gateway
order id (silently done when absent), mark it paid with the gateway
transaction id, and move the referenced job to completed. -/
def handlePaymentCaptured (s : Store) (orderId paymentId : Str) : Store :=
  match findPaymentByOrder s orderId with
  | none => s
  | some p =>
    updateJobById (updatePaymentById s p.id (capturePaymentDoc paymentId))
      p.jobId completeJobDoc

/-- Webhook helper for payment.failed: locate the Payment by gateway
order id and mark it failed. -/
def handlePaymentFailed (s : Store) (orderId : Str) : Store :=
  match findPaymentByOrder s orderId with
  | none => s
  | some p =>
    updatePaymentById s p.id failPaymentDoc

/-- A parsed webhook event: the two handled kinds carry the gateway
order id (and transaction id for captures); everything else is ignored. -/
inductive WebhookEvent
  | captured (orderId paymentId : Str)
  | failed (orderId : Str)
  | other
deriving DecidableEq, Repr

/-- POST /api/payment/webhook: recompute the HMAC over the raw body
under the webhook secret and compare with the signature header; on
mismatch fail with authenticationError, otherwise dispatch on the parsed
event kind (parsing of the raw JSON body is a function parameter). -/
def handleWebhook (s : Store) (hmac : Str → Str → Str) (webhookSecret : Str)
    (rawBody signatureHeader : Str) (parse : Str → WebhookEvent) : Store × Option Err :=
  if hmac webhookSecret rawBody ≠ signatureHeader then
    (s, some Err.authenticationError)
  else
    match parse rawBody with
    | WebhookEvent.captured o t => (handlePaymentCaptured s o t, none)
    | WebhookEvent.failed o => (handlePaymentFailed s o, none)
    | WebhookEvent.other => (s, none)

/-!
Helper lemmas shared by the claim theorems.
-/

/-- A found bid carries the identifier it was looked up by. -/
theorem findBid_id {s : Store} {i : Nat} {b : Bid} (h : findBid s i = some b) :
    b.id = i := by
  unfold findBid at h
  simpa using List.find?_some h

/-- A found bid is a member of the store. -/
theorem findBid_mem {s : Store} {i : Nat} {b : Bid} (h : findBid s i = some b) :
    b ∈ s.bids := by
  unfold findBid at h
  exact List.mem_of_find?_eq_some h

/-- A found job carries the identifier it was looked up by. -/
theorem findJob_id {s : Store} {i : Nat} {j : Job} (h : findJob s i = some j) :
    j.id = i := by
  unfold findJob at h
  simpa using List.find?_some h

/-- A found job is a member of the store. -/
theorem findJob_mem {s : Store} {i : Nat} {j : Job} (h : findJob s i = some j) :
    j ∈ s.jobs := by
  unfold findJob at h
  exact List.mem_of_find?_eq_some h

/-- A found payment carries the order identifier it was looked up by. -/
theorem findPayment_order {s : Store} {o : Str} {p : Payment}
    (h : findPaymentByOrder s o = some p) : p.razorpayOrderId = o := by
  unfold findPaymentByOrder at h
  simpa using List.find?_some h

/-- A found payment is a member of the store. -/
theorem findPayment_mem {s : Store} {o : Str} {p : Payment}
    (h : findPaymentByOrder s o = some p) : p ∈ s.payments := by
  unfold findPaymentByOrder at h
  exact List.mem_of_find?_eq_some h

/-!
Concrete example entities used by the witness theorems, following the
scenario of the specification: one job with budget 500 owned by user 10,
freelancer 20 bidding 400, freelancer 21 bidding 450.
-/

/-- Example job, open and unassigned. -/
def exJob : Job :=
  { id := 1, title := "Build a site", description := "", category := "Web Development",
    budget := 500, skills := [], createdBy := 10, status := JobStatus.open_,
    assignedTo := none, bidsCount := 2 }

/-- Example bid of freelancer 20. -/
def exBidA : Bid :=
  { id := 5, freelancerId := 20, jobId := 1, bidAmount := 400,
    message := "I can do it", deliveryTime := 7, status := BidStatus.pending }

/-- Example bid of freelancer 21. -/
def exBidB : Bid :=
  { id := 6, freelancerId := 21, jobId := 1, bidAmount := 450,
    message := "Pick me now!", deliveryTime := 5, status := BidStatus.pending }

/-- Example store with the open job and the two pending bids. -/
def exStore : Store := { jobs := [exJob], bids := [exBidA, exBidB], payments := [] }

/-- Example store whose job is already in progress and assigned. -/
def exStoreAssigned : Store :=
  { jobs := [{ exJob with status := JobStatus.in_progress, assignedTo := some 20 }],
    bids := [{ exBidA with status := BidStatus.accepted },
             { exBidB with status := BidStatus.rejected }],
    payments := [] }


/-- Claim C1: when the caller owns the parent job and the job is open,
acceptBid marks the bid accepted, moves the job to in_progress assigned
to the bid's freelancer, and marks every other bid on the same job
rejected; when the job is not open it fails with conflictError and
changes no bid or job state. -/
theorem acceptBid_correct (s : Store) (caller bidId : Nat) (bid : Bid) (job : Job)
    (hb : findBid s bidId = some bid) (hj : findJob s bid.jobId = some job)
    (hown : job.createdBy = caller) :
    (job.status = JobStatus.open_ →
      (acceptBid s caller bidId).2 = none ∧
      (∀ b ∈ (acceptBid s caller bidId).1.bids, b.id = bidId →
        b.status = BidStatus.accepted) ∧
      (∀ b ∈ (acceptBid s caller bidId).1.bids, b.jobId = bid.jobId → b.id ≠ bidId →
        b.status = BidStatus.rejected) ∧
      (∀ j ∈ (acceptBid s caller bidId).1.jobs, j.id = bid.jobId →
        j.status = JobStatus.in_progress ∧ j.assignedTo = some bid.freelancerId)) ∧
    (job.status ≠ JobStatus.open_ →
      acceptBid s caller bidId = (s, some Err.conflictError)) := by
  have hid : bid.id = bidId := findBid_id hb
  constructor
  · intro hopen
    simp only [acceptBid, hb, hj, hown, hopen, ne_eq, not_true_eq_false, if_false,
      updateBidById, updateJobById, updateJobsById]
    refine ⟨trivial, ?_, ?_, ?_⟩
    · intro b hbmem hbid
      simp only [List.mem_map] at hbmem
      obtain ⟨a, ha, rfl⟩ := hbmem
      obtain ⟨x, hx, rfl⟩ := ha
      by_cases hxid : x.id = bid.id
      · simp [hxid, hid]
      · exfalso
        simp only [if_neg hxid] at hbid
        split at hbid <;> exact hxid ((show x.id = bidId by simpa using hbid).trans hid.symm)
    · intro b hbmem hbjob hbid
      simp only [List.mem_map] at hbmem
      obtain ⟨a, ha, rfl⟩ := hbmem
      by_cases hcond : a.jobId = bid.jobId ∧ ¬ a.id = bid.id
      · simp [hcond]
      · exfalso
        simp only [if_neg hcond] at hbjob hbid
        exact hcond ⟨hbjob, fun e => hbid (e.trans hid)⟩
    · intro j hjmem hjid
      simp only [List.mem_map] at hjmem
      obtain ⟨a, _, rfl⟩ := hjmem
      by_cases ha : a.id = bid.jobId
      · simp [ha]
      · exfalso
        simp only [if_neg ha] at hjid
        exact ha hjid
  · intro hnot
    simp [acceptBid, hb, hj, hown, hnot]

/-- Concrete check for acceptBid_correct: the specification's scenario
succeeds on the open job, and accepting a bid of the already-assigned
job fails with conflictError leaving the store intact. -/
theorem acceptBid_correct_witness :
    (acceptBid exStore 10 5).2 = none ∧
    acceptBid exStoreAssigned 10 5 = (exStoreAssigned, some Err.conflictError) :=
  ⟨((acceptBid_correct exStore 10 5 exBidA exJob (by decide) (by decide)
      (by decide)).1 (by decide)).1,
   (acceptBid_correct exStoreAssigned 10 5
      { exBidA with status := BidStatus.accepted }
      { exJob with status := JobStatus.in_progress, assignedTo := some 20 }
      (by decide) (by decide) (by decide)).2 (by decide)⟩

/-- Common facts about the match branch of verifyPayment: outcome is
success, the payment becomes paid carrying transaction id and signature,
and the referenced job becomes completed. -/
theorem verify_match_aux (s : Store) (caller : Nat) (hmac : Str → Str → Str)
    (secret orderId txn sig : Str) (p : Payment) (job : Job)
    (hp : findPaymentByOrder s orderId = some p)
    (hj : findJob s p.jobId = some job)
    (hsig : signatureOk hmac secret orderId txn sig = true) :
    (verifyPayment s caller hmac secret orderId txn sig).2 = none ∧
    (∀ q ∈ (verifyPayment s caller hmac secret orderId txn sig).1.payments,
      q.id = p.id → q.status = PaymentStatus.paid ∧
        q.razorpayPaymentId = some txn ∧ q.razorpaySignature = some sig) ∧
    (∀ j ∈ (verifyPayment s caller hmac secret orderId txn sig).1.jobs,
      j.id = p.jobId → j.status = JobStatus.completed) := by
  simp only [verifyPayment, hp, hsig, if_true, updatePaymentById, updateJobById,
    updateJobsById, hj]
  refine ⟨trivial, ?_, ?_⟩
  · intro q hq hqid
    simp only [List.mem_map] at hq
    obtain ⟨a, ha, rfl⟩ := hq
    by_cases hc : a.id = p.id
    · simp [hc, settlePaymentDoc]
    · exfalso
      simp only [if_neg hc] at hqid
      exact hc hqid
  · intro j hjm hjid
    simp only [List.mem_map] at hjm
    obtain ⟨a, ha, rfl⟩ := hjm
    by_cases hc : a.id = p.jobId
    · simp [hc, completeJobDoc]
    · exfalso
      simp only [if_neg hc] at hjid
      exact hc hjid

/-- Claim C3: when the supplied signature differs from the recomputed
HMAC, verifyPayment marks the payment failed, fails the caller with
authenticationError, and leaves every job (and bid) unchanged. -/
theorem verifyPayment_mismatch_correct (s : Store) (caller : Nat)
    (hmac : Str → Str → Str) (secret orderId txn sig : Str) (p : Payment)
    (hp : findPaymentByOrder s orderId = some p)
    (hsig : signatureOk hmac secret orderId txn sig = false) :
    (verifyPayment s caller hmac secret orderId txn sig).2 = some Err.authenticationError ∧
    (∀ q ∈ (verifyPayment s caller hmac secret orderId txn sig).1.payments,
      q.id = p.id → q.status = PaymentStatus.failed) ∧
    (verifyPayment s caller hmac secret orderId txn sig).1.jobs = s.jobs ∧
    (verifyPayment s caller hmac secret orderId txn sig).1.bids = s.bids := by
  simp only [verifyPayment, hp, hsig, Bool.false_eq_true, if_false, updatePaymentById]
  refine ⟨trivial, ?_, trivial, trivial⟩
  intro q hq hqid
  simp only [List.mem_map] at hq
  obtain ⟨a, ha, rfl⟩ := hq
  by_cases hc : a.id = p.id
  · simp [hc, failPaymentDoc]
  · exfalso
    simp only [if_neg hc] at hqid
    exact hc hqid

/-- Claim C4: when the supplied signature equals the recomputed HMAC,
verifyPayment marks the payment paid, records the transaction id and the
signature on it, and moves the referenced job to completed. -/
theorem verifyPayment_match_correct (s : Store) (caller : Nat)
    (hmac : Str → Str → Str) (secret orderId txn sig : Str) (p : Payment) (job : Job)
    (hp : findPaymentByOrder s orderId = some p)
    (hj : findJob s p.jobId = some job)
    (hsig : signatureOk hmac secret orderId txn sig = true) :
    (verifyPayment s caller hmac secret orderId txn sig).2 = none ∧
    (∀ q ∈ (verifyPayment s caller hmac secret orderId txn sig).1.payments,
      q.id = p.id → q.status = PaymentStatus.paid ∧
        q.razorpayPaymentId = some txn ∧ q.razorpaySignature = some sig) ∧
    (∀ j ∈ (verifyPayment s caller hmac secret orderId txn sig).1.jobs,
      j.id = p.jobId → j.status = JobStatus.completed) :=
  verify_match_aux s caller hmac secret orderId txn sig p job hp hj hsig

/-!
Concrete gateway data for the payment witnesses.
-/

/-- Example stand-in for the external HMAC primitive. -/
def exHmac : Str → Str → Str := fun key msg => key ++ msg

/-- Example shared secret. -/
def exSecret : Str := [true, true]

/-- Example gateway order id. -/
def exOrder : Str := [true, false]

/-- Example gateway transaction id. -/
def exTxn : Str := [false, true]

/-- The signature the example HMAC yields for the example order. -/
def exGoodSig : Str := exHmac exSecret (signatureBody exOrder exTxn)

/-- A signature that does not match the example order. -/
def exBadSig : Str := [true]

/-- The example job after bid acceptance. -/
def exJobAssigned : Job :=
  { exJob with status := JobStatus.in_progress, assignedTo := some 20 }

/-- Example payment record for the example job, freshly created. -/
def exPayment : Payment :=
  { id := 9, jobId := 1, payerId := 10, payeeId := 20, amount := 500,
    razorpayOrderId := exOrder, razorpayPaymentId := none,
    razorpaySignature := none, status := PaymentStatus.created }

/-- Example store holding the assigned job and the created payment. -/
def exStorePay : Store :=
  { jobs := [exJobAssigned], bids := [], payments := [exPayment] }

/-- Concrete check for verifyPayment_mismatch_correct: a wrong signature
fails with authenticationError and leaves the job list unchanged. -/
theorem verifyPayment_mismatch_correct_witness :
    (verifyPayment exStorePay 10 exHmac exSecret exOrder exTxn exBadSig).2 =
      some Err.authenticationError ∧
    (verifyPayment exStorePay 10 exHmac exSecret exOrder exTxn exBadSig).1.jobs =
      exStorePay.jobs :=
  ⟨(verifyPayment_mismatch_correct exStorePay 10 exHmac exSecret exOrder exTxn exBadSig
      exPayment (by decide) (by decide)).1,
   (verifyPayment_mismatch_correct exStorePay 10 exHmac exSecret exOrder exTxn exBadSig
      exPayment (by decide) (by decide)).2.2.1⟩

/-- Concrete check for verifyPayment_match_correct: the matching
signature verifies successfully. -/
theorem verifyPayment_match_correct_witness :
    (verifyPayment exStorePay 10 exHmac exSecret exOrder exTxn exGoodSig).2 = none :=
  (verifyPayment_match_correct exStorePay 10 exHmac exSecret exOrder exTxn exGoodSig
    exPayment exJobAssigned (by decide) (by decide) (by decide)).1

/-- Flip a single bit of a bit string. -/
def flipBit (l : Str) (i : Nat) : Str := l.set i (!(l.getD i false))

/-- Flipping a bit inside the string really changes it. -/
theorem flipBit_ne (l : Str) (i : Nat) (hi : i < l.length) : flipBit l i ≠ l := by
  intro h
  have h1 := congrArg (fun t => t.getD i false) h
  simp only [flipBit] at h1
  rw [show (l.set i (!(l.getD i false))).getD i false = !(l.getD i false) by
    simp [List.getD_eq_getElem?_getD, List.getElem?_set, hi]] at h1
  exact (Bool.not_ne_self _) h1

/-- Claim C9: signature verification is a deterministic pure function of
order id, transaction id, secret and supplied signature, and for any
accepted input, flipping any single bit of the supplied signature makes
it rejected. -/
theorem signatureOk_pure_bitflip :
    (∀ (hmac : Str → Str → Str) (secretA secretB orderA orderB txnA txnB sigA sigB : Str),
      secretA = secretB → orderA = orderB → txnA = txnB → sigA = sigB →
      signatureOk hmac secretA orderA txnA sigA =
      signatureOk hmac secretB orderB txnB sigB) ∧
    (∀ (hmac : Str → Str → Str) (secret orderId txn sig : Str) (i : Nat),
      i < sig.length → signatureOk hmac secret orderId txn sig = true →
      signatureOk hmac secret orderId txn (flipBit sig i) = false) := by
  constructor
  · rintro hmac s₁ s₂ o₁ o₂ t₁ t₂ g₁ g₂ rfl rfl rfl rfl
    rfl
  · intro hmac secret orderId txn sig i hi hok
    have hexp : expectedSignature hmac secret orderId txn = sig := by
      simpa [signatureOk] using hok
    have hne : flipBit sig i ≠ sig := flipBit_ne sig i hi
    simp only [signatureOk, hexp, decide_eq_false_iff_not]
    exact fun h => hne h.symm

/-- Concrete check for signatureOk_pure_bitflip: the example signature
is accepted and its bit-0 flip is rejected. -/
theorem signatureOk_pure_bitflip_witness :
    signatureOk exHmac exSecret exOrder exTxn exGoodSig = true ∧
    signatureOk exHmac exSecret exOrder exTxn (flipBit exGoodSig 0) = false :=
  ⟨by decide,
   signatureOk_pure_bitflip.2 exHmac exSecret exOrder exTxn exGoodSig 0
     (by decide) (by decide)⟩

/-- Claim C10: verifyPayment consults the authenticated caller for
nothing: its result is identical for any two callers, and a caller who
is neither payer nor payee of the payment still drives the referenced
job to completed by supplying a valid signature. -/
theorem verifyPayment_caller_independent :
    (∀ (s : Store) (hmac : Str → Str → Str) (secret orderId txn sig : Str) (c₁ c₂ : Nat),
      verifyPayment s c₁ hmac secret orderId txn sig =
      verifyPayment s c₂ hmac secret orderId txn sig) ∧
    (∀ (s : Store) (c : Nat) (hmac : Str → Str → Str) (secret orderId txn sig : Str)
      (p : Payment) (job : Job),
      findPaymentByOrder s orderId = some p → findJob s p.jobId = some job →
      signatureOk hmac secret orderId txn sig = true →
      c ≠ p.payerId → c ≠ p.payeeId →
      (verifyPayment s c hmac secret orderId txn sig).2 = none ∧
      ∀ j ∈ (verifyPayment s c hmac secret orderId txn sig).1.jobs,
        j.id = p.jobId → j.status = JobStatus.completed) := by
  constructor
  · intro s hmac secret o t g c₁ c₂
    rfl
  · intro s c hmac secret o t g p job hp hj hok hc1 hc2
    exact ⟨(verify_match_aux s c hmac secret o t g p job hp hj hok).1,
           (verify_match_aux s c hmac secret o t g p job hp hj hok).2.2⟩

/-- Concrete check for verifyPayment_caller_independent: caller 99 is
neither payer 10 nor payee 20 of the example payment yet the verify
succeeds for them exactly as for the owner. -/
theorem verifyPayment_caller_independent_witness :
    verifyPayment exStorePay 99 exHmac exSecret exOrder exTxn exGoodSig =
      verifyPayment exStorePay 10 exHmac exSecret exOrder exTxn exGoodSig ∧
    (verifyPayment exStorePay 99 exHmac exSecret exOrder exTxn exGoodSig).2 = none :=
  ⟨verifyPayment_caller_independent.1 exStorePay exHmac exSecret exOrder exTxn exGoodSig 99 10,
   (verifyPayment_caller_independent.2 exStorePay 99 exHmac exSecret exOrder exTxn exGoodSig
      exPayment exJobAssigned (by decide) (by decide) (by decide)
      (by decide) (by decide)).1⟩

/-- find? commutes with a map that does not disturb the predicate. -/
theorem find?_map_inv {A : Type} (f : A → A) (q : A → Bool)
    (h : ∀ a, q (f a) = q a) (l : List A) :
    (l.map f).find? q = (l.find? q).map f := by
  induction l with
  | nil => rfl
  | cons a t ih =>
    simp only [List.map_cons, List.find?_cons]
    rw [h a]
    cases hq : q a <;> simp [hq, ih]

/-- Mapping an idempotent function twice is mapping it once. -/
theorem map_map_self {A : Type} (f : A → A) (h : ∀ a, f (f a) = f a) (l : List A) :
    (l.map f).map f = l.map f := by
  rw [List.map_map]
  exact List.map_congr_left fun a _ => h a

/-- Looking a payment up through an order-id-preserving update. -/
theorem findPayment_update (s : Store) (pid : Nat) (f : Payment → Payment)
    (hord : ∀ q, (f q).razorpayOrderId = q.razorpayOrderId) (o : Str) :
    findPaymentByOrder (updatePaymentById s pid f) o =
      (findPaymentByOrder s o).map fun q => if q.id = pid then f q else q := by
  unfold findPaymentByOrder updatePaymentById
  exact find?_map_inv _ _ (fun a => by by_cases h : a.id = pid <;> simp [h, hord]) _

/-- Looking a job up through an id-preserving update. -/
theorem findJob_update (s : Store) (jid : Nat) (f : Job → Job)
    (hid : ∀ j, (f j).id = j.id) (k : Nat) :
    findJob (updateJobById s jid f) k =
      (findJob s k).map fun j => if j.id = jid then f j else j := by
  unfold findJob updateJobById updateJobsById
  exact find?_map_inv _ _ (fun a => by by_cases h : a.id = jid <;> simp [h, hid]) _

/-- The payment-id update of one document is idempotent when the
per-document mutation is. -/
theorem updatePayment_ite_idem (f : Payment → Payment) (pid : Nat)
    (hid : ∀ q, (f q).id = q.id) (hf : ∀ q, f (f q) = f q) (q : Payment) :
    (fun x => if x.id = pid then f x else x)
      ((fun x => if x.id = pid then f x else x) q) =
      (fun x => if x.id = pid then f x else x) q := by
  by_cases h : q.id = pid
  · simp only [h, if_true]
    rw [if_pos ((hid q).trans h), hf]
  · simp [h]

/-- The job-id update of one document is idempotent when the
per-document mutation is. -/
theorem updateJob_ite_idem (f : Job → Job) (jid : Nat)
    (hid : ∀ j, (f j).id = j.id) (hf : ∀ j, f (f j) = f j) (j : Job) :
    (fun x => if x.id = jid then f x else x)
      ((fun x => if x.id = jid then f x else x) j) =
      (fun x => if x.id = jid then f x else x) j := by
  by_cases h : j.id = jid
  · simp only [h, if_true]
    rw [if_pos ((hid j).trans h), hf]
  · simp [h]

/-- Claim C5: the settlement transition is idempotent.  Verifying the
same valid payment twice leaves exactly the state of the first
verification, and a replayed payment.captured webhook is a no-op on the
state the first delivery produced. -/
theorem settlement_idempotent :
    (∀ (s : Store) (caller : Nat) (hmac : Str → Str → Str)
       (secret orderId txn sig : Str) (p : Payment) (job : Job),
      findPaymentByOrder s orderId = some p →
      findJob s p.jobId = some job →
      signatureOk hmac secret orderId txn sig = true →
      (verifyPayment s caller hmac secret orderId txn sig).2 = none ∧
      verifyPayment (verifyPayment s caller hmac secret orderId txn sig).1
        caller hmac secret orderId txn sig =
        verifyPayment s caller hmac secret orderId txn sig) ∧
    (∀ (s : Store) (orderId txn : Str),
      handlePaymentCaptured (handlePaymentCaptured s orderId txn) orderId txn =
      handlePaymentCaptured s orderId txn) := by
  constructor
  · intro s caller hmac secret o t g p job hp hj hok
    have hjid : job.id = p.jobId := findJob_id hj
    have e1 : verifyPayment s caller hmac secret o t g =
        (updateJobById (updatePaymentById s p.id (settlePaymentDoc t g)) p.jobId
          completeJobDoc, none) := by
      simp [verifyPayment, hp, hj, hok]
    refine ⟨by rw [e1], ?_⟩
    rw [e1]
    have hfp : findPaymentByOrder
        (updateJobById (updatePaymentById s p.id (settlePaymentDoc t g)) p.jobId
          completeJobDoc) o = some (settlePaymentDoc t g p) := by
      have hskip : findPaymentByOrder
          (updateJobById (updatePaymentById s p.id (settlePaymentDoc t g)) p.jobId
            completeJobDoc) o =
          findPaymentByOrder (updatePaymentById s p.id (settlePaymentDoc t g)) o := rfl
      rw [hskip, findPayment_update s p.id (settlePaymentDoc t g) (fun q => rfl) o, hp]
      simp
    have hfj : findJob
        (updateJobById (updatePaymentById s p.id (settlePaymentDoc t g)) p.jobId
          completeJobDoc) (settlePaymentDoc t g p).jobId =
        some (completeJobDoc job) := by
      have h2 : (settlePaymentDoc t g p).jobId = p.jobId := rfl
      rw [h2, findJob_update (updatePaymentById s p.id (settlePaymentDoc t g)) p.jobId completeJobDoc (fun j => rfl) p.jobId]
      have hskip : findJob (updatePaymentById s p.id (settlePaymentDoc t g)) p.jobId =
          findJob s p.jobId := rfl
      rw [hskip, hj]
      simp [hjid]
    simp only [verifyPayment, hfp, hok, if_true, hfj]
    have hpid : (settlePaymentDoc t g p).id = p.id := rfl
    have hpjid : (settlePaymentDoc t g p).jobId = p.jobId := rfl
    rw [hpid, hpjid]
    refine Prod.ext ?_ rfl
    show updateJobById (updatePaymentById
        (updateJobById (updatePaymentById s p.id (settlePaymentDoc t g)) p.jobId
          completeJobDoc) p.id (settlePaymentDoc t g)) p.jobId completeJobDoc = _
    unfold updateJobById updatePaymentById updateJobsById
    simp only [Store.mk.injEq]
    refine ⟨?_, ⟨trivial, ?_⟩⟩
    · exact map_map_self _ (updateJob_ite_idem completeJobDoc p.jobId
        (fun j => rfl) (fun j => rfl)) s.jobs
    · exact map_map_self _ (updatePayment_ite_idem (settlePaymentDoc t g) p.id
        (fun q => rfl) (fun q => rfl)) s.payments
  · intro s o t
    cases hp : findPaymentByOrder s o with
    | none => simp [handlePaymentCaptured, hp]
    | some p =>
      have e1 : handlePaymentCaptured s o t =
          updateJobById (updatePaymentById s p.id (capturePaymentDoc t)) p.jobId
            completeJobDoc := by
        simp [handlePaymentCaptured, hp]
      rw [e1]
      have hfp : findPaymentByOrder
          (updateJobById (updatePaymentById s p.id (capturePaymentDoc t)) p.jobId
            completeJobDoc) o = some (capturePaymentDoc t p) := by
        have hskip : findPaymentByOrder
            (updateJobById (updatePaymentById s p.id (capturePaymentDoc t)) p.jobId
              completeJobDoc) o =
            findPaymentByOrder (updatePaymentById s p.id (capturePaymentDoc t)) o := rfl
        rw [hskip, findPayment_update s p.id (capturePaymentDoc t) (fun q => rfl) o, hp]
        simp
      simp only [handlePaymentCaptured, hfp]
      have hpid : (capturePaymentDoc t p).id = p.id := rfl
      have hpjid : (capturePaymentDoc t p).jobId = p.jobId := rfl
      rw [hpid, hpjid]
      unfold updateJobById updatePaymentById updateJobsById
      simp only [Store.mk.injEq]
      refine ⟨?_, ⟨trivial, ?_⟩⟩
      · exact map_map_self _ (updateJob_ite_idem completeJobDoc p.jobId
          (fun j => rfl) (fun j => rfl)) s.jobs
      · exact map_map_self _ (updatePayment_ite_idem (capturePaymentDoc t) p.id
          (fun q => rfl) (fun q => rfl)) s.payments

/-- Concrete check for settlement_idempotent: verifying the example
payment twice equals verifying it once. -/
theorem settlement_idempotent_witness :
    verifyPayment (verifyPayment exStorePay 10 exHmac exSecret exOrder exTxn exGoodSig).1
      10 exHmac exSecret exOrder exTxn exGoodSig =
    verifyPayment exStorePay 10 exHmac exSecret exOrder exTxn exGoodSig :=
  (settlement_idempotent.1 exStorePay 10 exHmac exSecret exOrder exTxn exGoodSig
    exPayment exJobAssigned (by decide) (by decide) (by decide)).2

/-- No two distinct bids share a (freelancerId, jobId) pair. -/
def bidPairUnique (l : List Bid) : Prop :=
  l.Pairwise fun a b => ¬ (a.freelancerId = b.freelancerId ∧ a.jobId = b.jobId)

/-- Claim C6: a duplicate bid is rejected with conflictError leaving the
store (hence bidsCount) unchanged; the store-level unique index refuses a
duplicate pair regardless of the application pre-check; and placeBid
preserves uniqueness of the (freelancerId, jobId) pairs. -/
theorem placeBid_unique :
    (∀ (s : Store) (caller jid amount dt nid : Nat) (msg : String)
       (job : Job) (b : Bid),
      findJob s jid = some job → job.status = JobStatus.open_ →
      b ∈ s.bids → b.freelancerId = caller → b.jobId = jid →
      1 ≤ amount → 10 ≤ msg.length → 1 ≤ dt →
      placeBid s caller Role.freelancer jid amount msg dt nid =
        (s, some Err.conflictError)) ∧
    (∀ (s : Store) (b : Bid),
      (∃ x ∈ s.bids, x.freelancerId = b.freelancerId ∧ x.jobId = b.jobId) →
      bidSave s b = Except.error Err.conflictError) ∧
    (∀ (s : Store) (caller : Nat) (role : Role) (jid amount dt nid : Nat)
       (msg : String),
      bidPairUnique s.bids →
      bidPairUnique (placeBid s caller role jid amount msg dt nid).1.bids) := by
  refine ⟨?_, ?_, ?_⟩
  · intro s caller jid amount dt nid msg job b hj hopen hmem hbf hbj ha hm hd
    have hdup : s.bids.any (fun x => x.freelancerId = caller ∧ x.jobId = jid) = true := by
      simp only [List.any_eq_true]
      exact ⟨b, hmem, by simp [hbf, hbj]⟩
    simp only [placeBid, hj, hopen, ha, hm, hd, hdup]
    simp
  · intro s b hdup
    have h : s.bids.any
        (fun x => x.freelancerId = b.freelancerId ∧ x.jobId = b.jobId) = true := by
      simp only [List.any_eq_true]
      obtain ⟨x, hx, h1, h2⟩ := hdup
      exact ⟨x, hx, by simp [h1, h2]⟩
    simp [bidSave]
    exact hdup
  · intro s caller role jid amount dt nid msg huniq
    unfold placeBid
    split
    · exact huniq
    split
    · exact huniq
    split
    · exact huniq
    next job hjob =>
      split
      · exact huniq
      split
      · exact huniq
      next hnodup =>
        split
        next e heq => exact huniq
        next s1 heq =>
          unfold bidSave at heq
          split at heq
          · exact absurd heq (by simp)
          next hnodup2 =>
            have hs1 : s1 = { s with bids := s.bids ++
                [{ id := nid, freelancerId := caller, jobId := jid,
                   bidAmount := amount, message := msg,
                   deliveryTime := dt, status := BidStatus.pending }] } := by
              injection heq with h
              exact h.symm
            subst hs1
            show bidPairUnique (updateJobById _ _ _).bids
            simp only [updateJobById]
            simp only [bidPairUnique, List.pairwise_append, List.pairwise_cons,
              List.Pairwise.nil, and_true, List.mem_singleton]
            refine ⟨huniq, by simp, ?_⟩
            intro a hmem y hy
            subst hy
            intro hcon
            apply hnodup2
            simp only [List.any_eq_true]
            exact ⟨a, hmem, by simp [hcon.1, hcon.2]⟩

/-- Example store where freelancer 20 already bid on job 1 and the job
is still open. -/
def exStoreDup : Store := { jobs := [exJob], bids := [exBidA], payments := [] }

/-- Concrete check for placeBid_unique: freelancer 20 bidding again on
job 1 is rejected with conflictError and the store is unchanged. -/
theorem placeBid_unique_witness :
    placeBid exStoreDup 20 Role.freelancer 1 300 "another offer" 3 7 =
      (exStoreDup, some Err.conflictError) :=
  placeBid_unique.1 exStoreDup 20 1 300 3 7 "another offer" exJob exBidA
    (by decide) (by decide) (by decide) (by decide) (by decide)
    (by decide) (by decide) (by decide)

/-- The job invariant of the specification: a job is assigned exactly
when it is in progress or completed. -/
def jobOk (j : Job) : Prop :=
  j.assignedTo ≠ none ↔ (j.status = JobStatus.in_progress ∨ j.status = JobStatus.completed)

/-- Every job of the store satisfies the invariant. -/
def jobsOk (s : Store) : Prop := ∀ j ∈ s.jobs, jobOk j

instance (j : Job) : Decidable (jobOk j) := by
  unfold jobOk
  infer_instance

instance (s : Store) : Decidable (jobsOk s) := by
  unfold jobsOk
  infer_instance

/-- jobsOk survives an id-targeted update whose mutation keeps the
invariant on the touched documents. -/
theorem jobsOk_updateJobById (s : Store) (jid : Nat) (f : Job → Job)
    (hs : jobsOk s) (h : ∀ j ∈ s.jobs, j.id = jid → jobOk j → jobOk (f j)) :
    jobsOk (updateJobById s jid f) := by
  intro j hj
  simp only [updateJobById, updateJobsById, List.mem_map] at hj
  obtain ⟨a, ha, rfl⟩ := hj
  by_cases hc : a.id = jid
  · simp only [if_pos hc]
    exact h a ha hc (hs a ha)
  · simp only [if_neg hc]
    exact hs a ha

/-- A status field override through the job update route violates the
claimed invariant: the owner marks the open, unassigned example job
completed, the route succeeds, and the resulting job is completed while
assignedTo is still null. -/
theorem jobInvariant_counterexample :
    jobOk exJob ∧
    (updateJobRoute exStore 10 Role.job_provider 1
      { title := none, description := none, budget := none, skills := none,
        status := some JobStatus.completed }).2 = none ∧
    (updateJobRoute exStore 10 Role.job_provider 1
      { title := none, description := none, budget := none, skills := none,
        status := some JobStatus.completed }).1.jobs =
      [{ exJob with status := JobStatus.completed }] ∧
    ¬ jobOk { exJob with status := JobStatus.completed } := by decide

/-- Claim C2, amended: on a store whose jobs all satisfy the invariant,
every modelled operation except the job update route preserves it — for
payment verification and webhook capture under the side condition that
the settled payment's referenced job is assigned, which holds for
payments created by createOrder since no operation ever clears
assignedTo.  The excluded update route can violate the invariant, as
jobInvariant_counterexample shows, because status sits in its allowlist
while assignedTo is never written. -/
theorem jobInvariant_preserved :
    (∀ (s : Store) (caller : Nat) (role : Role) (title descr cat : String)
       (budget : Nat) (skills : List String) (nid : Nat),
      jobsOk s → jobsOk (createJob s caller role title descr cat budget skills nid).1) ∧
    (∀ (s : Store) (caller : Nat) (role : Role) (jid amount dt nid : Nat) (msg : String),
      jobsOk s → jobsOk (placeBid s caller role jid amount msg dt nid).1) ∧
    (∀ (s : Store) (caller bidId : Nat),
      jobsOk s → jobsOk (acceptBid s caller bidId).1) ∧
    (∀ (s : Store) (caller bidId : Nat),
      jobsOk s → jobsOk (rejectBid s caller bidId).1) ∧
    (∀ (s : Store) (caller bidId : Nat),
      jobsOk s → jobsOk (deleteBid s caller bidId).1) ∧
    (∀ (s : Store) (caller : Nat) (role : Role) (jid : Nat),
      jobsOk s → jobsOk (deleteJobRoute s caller role jid).1) ∧
    (∀ (s : Store) (caller : Nat) (role : Role) (jid amount : Nat) (oid : Str)
       (nid : Nat),
      jobsOk s → jobsOk (createOrder s caller role jid amount oid nid).1) ∧
    (∀ (s : Store) (caller : Nat) (hmac : Str → Str → Str) (secret o t g : Str),
      jobsOk s →
      (∀ p, findPaymentByOrder s o = some p →
        ∀ j ∈ s.jobs, j.id = p.jobId → j.assignedTo ≠ none) →
      jobsOk (verifyPayment s caller hmac secret o t g).1) ∧
    (∀ (s : Store) (hmac : Str → Str → Str) (wsecret raw sigH : Str)
       (parse : Str → WebhookEvent),
      jobsOk s →
      (∀ o t p, parse raw = WebhookEvent.captured o t →
        findPaymentByOrder s o = some p →
        ∀ j ∈ s.jobs, j.id = p.jobId → j.assignedTo ≠ none) →
      jobsOk (handleWebhook s hmac wsecret raw sigH parse).1) := by
  refine ⟨?_, ?_, ?_, ?_, ?_, ?_, ?_, ?_, ?_⟩
  · intro s caller role title descr cat budget skills nid hs
    unfold createJob
    split
    · exact hs
    split
    · exact hs
    intro j hj
    rcases List.mem_append.1 hj with h | h
    · exact hs j h
    · simp only [List.mem_singleton] at h
      subst h
      simp [jobOk]
  · intro s caller role jid amount dt nid msg hs
    unfold placeBid
    split
    · exact hs
    split
    · exact hs
    split
    · exact hs
    next job hjob =>
      split
      · exact hs
      split
      · exact hs
      split
      · exact hs
      next s1 heq =>
        unfold bidSave at heq
        split at heq
        · exact absurd heq (by simp)
        have hs1 : s1.jobs = s.jobs := by
          injection heq with h
          rw [← h]
        refine jobsOk_updateJobById s1 jid _ (fun j hj => hs j (hs1 ▸ hj)) ?_
        intro j hj hid hok
        simpa [jobOk] using hok
  · intro s caller bidId hs
    unfold acceptBid
    split
    · exact hs
    next bid hbid =>
      split
      · exact hs
      next job hjob =>
        split
        · exact hs
        split
        · exact hs
        show jobsOk (updateJobById (updateBidById s bid.id _) bid.jobId _)
        refine jobsOk_updateJobById _ bid.jobId _ (fun j hj => hs j hj) ?_
        intro j hj hid hok
        simp [jobOk]
  · intro s caller bidId hs
    unfold rejectBid
    split
    · exact hs
    next bid hbid =>
      split
      · exact hs
      next job hjob =>
        split
        · exact hs
        exact hs
  · intro s caller bidId hs
    unfold deleteBid
    split
    · exact hs
    next bid hbid =>
      split
      · exact hs
      split
      · exact hs
      refine jobsOk_updateJobById _ bid.jobId _ (fun j hj => hs j hj) ?_
      intro j hj hid hok
      simpa [jobOk] using hok
  · intro s caller role jid hs
    unfold deleteJobRoute
    split
    · exact hs
    split
    · exact hs
    next job hjob =>
      split
      · exact hs
      intro j hj
      exact hs j (List.mem_of_mem_filter hj)
  · intro s caller role jid amount oid nid hs
    unfold createOrder
    split
    · exact hs
    split
    · exact hs
    split
    · exact hs
    next job hjob =>
      split
      · exact hs
      split
      · exact hs
      exact hs
  · intro s caller hmac secret o t g hs hassigned
    unfold verifyPayment
    split
    · exact hs
    next p hp =>
      split
      · split
        · exact hs
        next job hjob =>
          refine jobsOk_updateJobById _ p.jobId completeJobDoc
            (fun j hj => hs j hj) ?_
          intro j hj hid hok
          have hne := hassigned p hp j hj hid
          simp [jobOk, completeJobDoc, hne]
      · exact hs
  · intro s hmac wsecret raw sigH parse hs hassigned
    unfold handleWebhook
    split
    · exact hs
    split
    next o t hparse =>
      unfold handlePaymentCaptured
      split
      · exact hs
      next p hp =>
        refine jobsOk_updateJobById _ p.jobId completeJobDoc
          (fun j hj => hs j hj) ?_
        intro j hj hid hok
        have hne := hassigned o t p hparse hp j hj hid
        simp [jobOk, completeJobDoc, hne]
    next o hparse =>
      unfold handlePaymentFailed
      split
      · exact hs
      · exact hs
    · exact hs

/-- Concrete check for jobInvariant_preserved: accepting the example bid
and then settling the example payment both keep every job invariant. -/
theorem jobInvariant_preserved_witness :
    jobsOk (acceptBid exStore 10 5).1 ∧
    jobsOk (verifyPayment exStorePay 10 exHmac exSecret exOrder exTxn exGoodSig).1 :=
  ⟨jobInvariant_preserved.2.2.1 exStore 10 5 (by decide),
   jobInvariant_preserved.2.2.2.2.2.2.2.1 exStorePay 10 exHmac exSecret exOrder exTxn
     exGoodSig (by decide)
     (by
       intro p hp j hj hid
       have h1 : findPaymentByOrder exStorePay exOrder = some exPayment := by decide
       have hpe : p = exPayment := (Option.some.inj (h1.symm.trans hp)).symm
       subst hpe
       have h2 : exStorePay.jobs = [exJobAssigned] := by decide
       rw [h2] at hj
       have hje : j = exJobAssigned := by simpa using hj
       subst hje
       decide)⟩

/-- The reject route changes an already-accepted bid: on the assigned
example store the owner rejects the accepted bid 5 and its status moves
accepted to rejected, refuting terminality of accepted. -/
theorem bidTerminal_counterexample :
    (findBid exStoreAssigned 5).map Bid.status = some BidStatus.accepted ∧
    (rejectBid exStoreAssigned 10 5).2 = none ∧
    (findBid (rejectBid exStoreAssigned 10 5).1 5).map Bid.status =
      some BidStatus.rejected := by decide

/-- Claim C7, amended: decided (accepted or rejected) bids can never be
deleted — deleteBid by the owning freelancer fails with conflictError
and changes nothing — but they are not terminal under the other
operations: rejectBid carries no status precondition and re-marks any
bid of the caller's job rejected, including an accepted one, as
bidTerminal_counterexample exhibits. -/
theorem decidedBid_immutability :
    (∀ (s : Store) (caller bidId : Nat) (b : Bid),
      findBid s bidId = some b → b.freelancerId = caller →
      b.status ≠ BidStatus.pending →
      deleteBid s caller bidId = (s, some Err.conflictError)) ∧
    (∀ (s : Store) (caller bidId : Nat) (b : Bid) (job : Job),
      findBid s bidId = some b → findJob s b.jobId = some job →
      job.createdBy = caller →
      (rejectBid s caller bidId).2 = none ∧
      ∀ x ∈ (rejectBid s caller bidId).1.bids, x.id = bidId →
        x.status = BidStatus.rejected) := by
  constructor
  · intro s caller bidId b hb hf hst
    simp [deleteBid, hb, hf, hst]
  · intro s caller bidId b job hb hj hown
    have hid : b.id = bidId := findBid_id hb
    simp only [rejectBid, hb, hj, hown, ne_eq, not_true_eq_false, if_false,
      updateBidById]
    refine ⟨trivial, ?_⟩
    intro x hx hxid
    simp only [List.mem_map] at hx
    obtain ⟨a, ha, rfl⟩ := hx
    by_cases hc : a.id = b.id
    · simp [hc]
    · exfalso
      simp only [if_neg hc] at hxid
      exact hc (hxid.trans hid.symm)

/-- Concrete check for decidedBid_immutability: freelancer 20 cannot
delete their accepted bid, and the owner's reject of bid 6 succeeds. -/
theorem decidedBid_immutability_witness :
    deleteBid exStoreAssigned 20 5 = (exStoreAssigned, some Err.conflictError) ∧
    (rejectBid exStoreAssigned 10 6).2 = none :=
  ⟨decidedBid_immutability.1 exStoreAssigned 20 5
      { exBidA with status := BidStatus.accepted } (by decide) (by decide) (by decide),
   (decidedBid_immutability.2 exStoreAssigned 10 6
      { exBidB with status := BidStatus.rejected }
      { exJob with status := JobStatus.in_progress, assignedTo := some 20 }
      (by decide) (by decide) (by decide)).1⟩

/-- The example payment after settlement. -/
def exPaymentPaid : Payment :=
  { exPayment with
    status := PaymentStatus.paid,
    razorpayPaymentId := some exTxn,
    razorpaySignature := some exGoodSig }

/-- Example store whose payment has already been settled. -/
def exStorePaid : Store :=
  { jobs := [{ exJobAssigned with status := JobStatus.completed }],
    bids := [], payments := [exPaymentPaid] }

/-- A paid payment moves back to failed: verifying the settled example
payment with a wrong signature overwrites status paid with failed,
refuting that paid only leaves through a refund. -/
theorem paymentBackward_counterexample :
    (findPaymentByOrder exStorePaid exOrder).map Payment.status =
      some PaymentStatus.paid ∧
    (verifyPayment exStorePaid 10 exHmac exSecret exOrder exTxn exBadSig).2 =
      some Err.authenticationError ∧
    (verifyPayment exStorePaid 10 exHmac exSecret exOrder exTxn
      exBadSig).1.payments.map Payment.status = [PaymentStatus.failed] := by decide

/-- Claim C8, amended: the created state is never re-entered — any
payment that still reads created after a verify call or a webhook
delivery is untouched from the prior store — but paid is not stable:
a mismatched-signature verify and a payment.failed webhook both
overwrite a paid payment with failed, as paymentBackward_counterexample
exhibits, and no refund transition is implemented. -/
theorem payment_created_never_reentered :
    (∀ (s : Store) (caller : Nat) (hmac : Str → Str → Str) (secret o t g : Str),
      ∀ q ∈ (verifyPayment s caller hmac secret o t g).1.payments,
        q.status = PaymentStatus.created → q ∈ s.payments) ∧
    (∀ (s : Store) (hmac : Str → Str → Str) (wsecret raw sigH : Str)
       (parse : Str → WebhookEvent),
      ∀ q ∈ (handleWebhook s hmac wsecret raw sigH parse).1.payments,
        q.status = PaymentStatus.created → q ∈ s.payments) := by
  constructor
  · intro s caller hmac secret o t g q hq hqs
    revert hq
    unfold verifyPayment
    split
    · exact fun hq => hq
    next p hp =>
      split
      · split
        · intro hq
          simp only [updatePaymentById, List.mem_map] at hq
          obtain ⟨a, ha, rfl⟩ := hq
          by_cases hc : a.id = p.id
          · rw [if_pos hc] at hqs ⊢
            exact absurd hqs (by simp [settlePaymentDoc])
          · rw [if_neg hc]
            exact ha
        next job hjob =>
          intro hq
          simp only [updateJobById, updatePaymentById, updateJobsById,
            List.mem_map] at hq
          obtain ⟨a, ha, rfl⟩ := hq
          by_cases hc : a.id = p.id
          · rw [if_pos hc] at hqs ⊢
            exact absurd hqs (by simp [settlePaymentDoc])
          · rw [if_neg hc]
            exact ha
      · intro hq
        simp only [updatePaymentById, List.mem_map] at hq
        obtain ⟨a, ha, rfl⟩ := hq
        by_cases hc : a.id = p.id
        · rw [if_pos hc] at hqs ⊢
          exact absurd hqs (by simp [failPaymentDoc])
        · rw [if_neg hc]
          exact ha
  · intro s hmac wsecret raw sigH parse q hq hqs
    revert hq
    unfold handleWebhook
    split
    · exact fun hq => hq
    split
    next o t hparse =>
      unfold handlePaymentCaptured
      split
      · exact fun hq => hq
      next p hp =>
        intro hq
        simp only [updateJobById, updatePaymentById, updateJobsById,
          List.mem_map] at hq
        obtain ⟨a, ha, rfl⟩ := hq
        by_cases hc : a.id = p.id
        · rw [if_pos hc] at hqs ⊢
          exact absurd hqs (by simp [capturePaymentDoc])
        · rw [if_neg hc]
          exact ha
    next o hparse =>
      unfold handlePaymentFailed
      split
      · exact fun hq => hq
      next p hp =>
        intro hq
        simp only [updatePaymentById, List.mem_map] at hq
        obtain ⟨a, ha, rfl⟩ := hq
        by_cases hc : a.id = p.id
        · rw [if_pos hc] at hqs ⊢
          exact absurd hqs (by simp [failPaymentDoc])
        · rw [if_neg hc]
          exact ha
    · exact fun hq => hq

/-- Concrete check for payment_created_never_reentered: after a verify
call against an order id nobody holds, the example created payment is
still the one from the prior store. -/
theorem payment_created_never_reentered_witness :
    exPayment ∈ exStorePay.payments :=
  payment_created_never_reentered.1 exStorePay 10 exHmac exSecret exBadSig exTxn
    exGoodSig exPayment (by decide) (by decide)
